import Mathlib

/-!
# Verification of the `voxel_2d` density grid and marching-squares extractor

Shallow embedding of `src/main.rs`. Scalar densities and world coordinates
(`f32` in the source) are modelled by `ℚ`; grid coordinates (`i32`) by `ℤ`;
`usize` by `ℕ`. The flat `Vec<f32>` buffer is a `List ℚ`; the in-bounds reads
`self.data[idx]` are rendered with `List.getD _ 0`, which agrees with the
source indexing whenever `data.length = width * height` (proved below where
needed). The gizmo draw calls are modelled by returning the list of emitted
line segments; the debug circle markers are not segments and are omitted.

Rational constants are written with `mkRat` so that they stay evaluable by
the kernel (`Rat` division is irreducible in this library version); lemmas
`ISO_LEVEL_eq` and `small_guard_eq` relate them to the usual fraction form.
-/

/-- `const VOXEL_SIZE: f32 = 8.0` -/
def VOXEL_SIZE : ℚ := 8

/-- `const ISO_LEVEL: f32 = 0.5` -/
def ISO_LEVEL : ℚ := mkRat 1 2

/-- Bevy's `Vec2`, componentwise. -/
abbrev Vec2 : Type := ℚ × ℚ

/-- Componentwise `Vec2` addition (`p0 + Vec2::new(..)` in the source). -/
def vadd (p q : Vec2) : Vec2 := (p.1 + q.1, p.2 + q.2)

/-- Componentwise `Vec2` subtraction (`p2 - p1`). -/
def vsub (p q : Vec2) : Vec2 := (p.1 - q.1, p.2 - q.2)

/-- Scalar multiplication of a `Vec2` on the right (`(p2 - p1) * t`). -/
def vsmul (p : Vec2) (t : ℚ) : Vec2 := (p.1 * t, p.2 * t)

/-- `struct VoxelMap { data: Vec<f32>, width: usize, height: usize }` -/
structure VoxelMap where
  data : List ℚ
  width : Nat
  height : Nat
deriving Repr, DecidableEq

/-- `f32::clamp(self, min, max)`: `min` if below, `max` if above, else itself. -/
def clamp (v lo hi : ℚ) : ℚ := max lo (min v hi)

namespace VoxelMap

/-- `VoxelMap::new`: `data: vec![1.0; width * height]`. -/
def new (width height : Nat) : VoxelMap :=
  { data := List.replicate (width * height) 1
    width := width
    height := height }

/-- `VoxelMap::world_to_grid`: add half the total extent, divide by
`VOXEL_SIZE`, floor to integer. -/
def world_to_grid (m : VoxelMap) (world_pos : Vec2) : ℤ × ℤ :=
  let offset_x : ℚ := ((m.width : ℚ) * VOXEL_SIZE) / 2
  let offset_y : ℚ := ((m.height : ℚ) * VOXEL_SIZE) / 2
  (⌊(world_pos.1 + offset_x) / VOXEL_SIZE⌋, ⌊(world_pos.2 + offset_y) / VOXEL_SIZE⌋)

/-- `VoxelMap::get_density`: `0.0` out of bounds, else `data[y*width + x]`. -/
def get_density (m : VoxelMap) (x y : ℤ) : ℚ :=
  if x < 0 ∨ (m.width : ℤ) ≤ x ∨ y < 0 ∨ (m.height : ℤ) ≤ y then 0
  else m.data.getD (y.toNat * m.width + x.toNat) 0

/-- `VoxelMap::modify_density`: in bounds, clamp `data[idx] + amount` into
`[0.0, 1.0]`; out of bounds, do nothing. -/
def modify_density (m : VoxelMap) (x y : ℤ) (amount : ℚ) : VoxelMap :=
  if 0 ≤ x ∧ x < (m.width : ℤ) ∧ 0 ≤ y ∧ y < (m.height : ℤ) then
    let idx := y.toNat * m.width + x.toNat
    { m with data := m.data.set idx (clamp (m.data.getD idx 0 + amount) 0 1) }
  else m

end VoxelMap

/-- `interpolate`: first endpoint when the edge is (nearly) flat, otherwise
`p1 + (p2 - p1) * t` with `t = (ISO_LEVEL - v1) / (v2 - v1)`. -/
def interpolate (p1 p2 : Vec2) (v1 v2 : ℚ) : Vec2 :=
  if |v2 - v1| < mkRat 1 10000 then p1
  else
    let t := (ISO_LEVEL - v1) / (v2 - v1)
    vadd p1 (vsmul (vsub p2 p1) t)

/-- The 4-bit case index of `draw_marching_squares`: `|=` accumulation of
1, 2, 4, 8 for the corners at or above `ISO_LEVEL`. -/
def case_index (v0 v1 v2 v3 : ℚ) : Nat :=
  (if ISO_LEVEL ≤ v0 then 1 else 0) |||
  (if ISO_LEVEL ≤ v1 then 2 else 0) |||
  (if ISO_LEVEL ≤ v2 then 4 else 0) |||
  (if ISO_LEVEL ≤ v3 then 8 else 0)

/-- The per-cell body of `draw_marching_squares`, given the four corner
densities `v0..v3` (LB, RB, RT, LT) and corner positions `p0..p3`: the list
of line segments drawn for this cell. -/
def cell_segments (v0 v1 v2 v3 : ℚ) (p0 p1 p2 p3 : Vec2) : List (Vec2 × Vec2) :=
  let ci := case_index v0 v1 v2 v3
  if ci = 0 ∨ ci = 15 then []
  else
    let a := interpolate p0 p3 v0 v3
    let b := interpolate p3 p2 v3 v2
    let c := interpolate p1 p2 v1 v2
    let d := interpolate p0 p1 v0 v1
    match ci with
    | 1 => [(a, d)]
    | 2 => [(d, c)]
    | 3 => [(a, c)]
    | 4 => [(c, b)]
    | 5 => [(a, d), (b, c)]
    | 6 => [(d, b)]
    | 7 => [(a, b)]
    | 8 => [(a, b)]
    | 9 => [(d, b)]
    | 10 => [(a, b), (c, d)]
    | 11 => [(c, b)]
    | 12 => [(a, c)]
    | 13 => [(d, c)]
    | 14 => [(a, d)]
    | _ => []

/-- World position of the bottom-left corner `p0` of grid cell `(x, y)` in
`draw_marching_squares` (its grid-to-world placement formula). -/
def cell_origin (m : VoxelMap) (x y : ℤ) : Vec2 :=
  let offset_x : ℚ := -((m.width : ℚ) * VOXEL_SIZE) / 2
  let offset_y : ℚ := -((m.height : ℚ) * VOXEL_SIZE) / 2
  ((x : ℚ) * VOXEL_SIZE + offset_x, (y : ℚ) * VOXEL_SIZE + offset_y)

/-- `draw_marching_squares` as a whole: all segments emitted over the cell
scan `y ∈ 0..height-1`, `x ∈ 0..width-1`. -/
def draw_marching_squares (m : VoxelMap) : List (Vec2 × Vec2) :=
  (List.range (m.height - 1)).flatMap fun y =>
    (List.range (m.width - 1)).flatMap fun x =>
      let p0 := cell_origin m x y
      let p1 := vadd p0 (VOXEL_SIZE, 0)
      let p2 := vadd p0 (VOXEL_SIZE, VOXEL_SIZE)
      let p3 := vadd p0 (0, VOXEL_SIZE)
      cell_segments (m.get_density x y) (m.get_density (x + 1) y)
        (m.get_density (x + 1) (y + 1)) (m.get_density x (y + 1)) p0 p1 p2 p3

/-- Every stored density lies in `[0, 1]`. -/
def in_range01 (m : VoxelMap) : Prop := ∀ q ∈ m.data, 0 ≤ q ∧ q ≤ 1

/-- One step of a `modify_density` call sequence. -/
def apply_call (m : VoxelMap) (c : ℤ × ℤ × ℚ) : VoxelMap :=
  m.modify_density c.1 c.2.1 c.2.2

/-- The four cell edges, named as in the spec's case table. -/
inductive Edge where
  | a
  | b
  | c
  | d
deriving DecidableEq, Fintype, Repr

/-- The spec's case→segments table, verbatim: which pairs of edge points
are joined for each case index (empty for 0, 15 and anything else). -/
def spec_case_edges : Nat → List (Edge × Edge)
  | 1 => [(.a, .d)]
  | 2 => [(.d, .c)]
  | 3 => [(.a, .c)]
  | 4 => [(.c, .b)]
  | 5 => [(.a, .d), (.b, .c)]
  | 6 => [(.d, .b)]
  | 7 => [(.a, .b)]
  | 8 => [(.a, .b)]
  | 9 => [(.d, .b)]
  | 10 => [(.a, .b), (.c, .d)]
  | 11 => [(.c, .b)]
  | 12 => [(.a, .c)]
  | 13 => [(.d, .c)]
  | 14 => [(.a, .d)]
  | _ => []

/-- Endpoint positions of a named edge, given the cell corner positions
`p0` (LB), `p1` (RB), `p2` (RT), `p3` (LT). -/
def edge_points (e : Edge) (p0 p1 p2 p3 : Vec2) : Vec2 × Vec2 :=
  match e with
  | .a => (p0, p3)
  | .b => (p3, p2)
  | .c => (p1, p2)
  | .d => (p0, p1)

/-- Endpoint densities of a named edge, given the corner densities
`v0` (LB), `v1` (RB), `v2` (RT), `v3` (LT). -/
def edge_densities (e : Edge) (v0 v1 v2 v3 : ℚ) : ℚ × ℚ :=
  match e with
  | .a => (v0, v3)
  | .b => (v3, v2)
  | .c => (v1, v2)
  | .d => (v0, v1)

/-- The interpolated point on a named edge: exactly the `a`, `b`, `c`, `d`
points computed by `draw_marching_squares`. -/
def edge_point (e : Edge) (v0 v1 v2 v3 : ℚ) (p0 p1 p2 p3 : Vec2) : Vec2 :=
  interpolate (edge_points e p0 p1 p2 p3).1 (edge_points e p0 p1 p2 p3).2
    (edge_densities e v0 v1 v2 v3).1 (edge_densities e v0 v1 v2 v3).2

/-- Boolean-parametrized form of the case index (bit `i` from bool `i`). -/
def case_index_b (b0 b1 b2 b3 : Bool) : Nat :=
  (cond b0 1 0) ||| (cond b1 2 0) ||| (cond b2 4 0) ||| (cond b3 8 0)

/-- Endpoint threshold bits of a named edge. -/
def edge_density_bits (e : Edge) (b0 b1 b2 b3 : Bool) : Bool × Bool :=
  match e with
  | .a => (b0, b3)
  | .b => (b3, b2)
  | .c => (b1, b2)
  | .d => (b0, b1)

/-- An edge crosses the threshold: one endpoint at or above `ISO_LEVEL`,
the other strictly below. -/
def crossing (u v : ℚ) : Prop :=
  (ISO_LEVEL ≤ u ∧ v < ISO_LEVEL) ∨ (u < ISO_LEVEL ∧ ISO_LEVEL ≤ v)

/-!
## Basic lemmas about the constants and helpers
-/

/-- `ISO_LEVEL` is the rational one half. -/
theorem ISO_LEVEL_eq : ISO_LEVEL = 1/2 := by
  unfold ISO_LEVEL; norm_num [mkRat, Rat.normalize]

/-- The interpolate guard constant is the rational `1/10000`. -/
theorem small_guard_eq : (mkRat 1 10000 : ℚ) = 1/10000 := by
  norm_num [mkRat, Rat.normalize]

/-- A fresh map's data vector has length `width * height`. -/
theorem new_data_length (width height : Nat) :
    (VoxelMap.new width height).data.length = width * height :=
  List.length_replicate ..

/-!
## Claim C1

`VoxelMap::new` contains no zero-size check: `vec![1.0; width * height]` is
built unconditionally, so construction never fails. With `width = 0` it
succeeds and yields an empty data vector rather than an invalid-argument
error.
-/

/-- Claim C1 counterexample: constructing with `width = 0` does not fail;
`VoxelMap::new 0 5` succeeds and returns the map with an empty cell vector. -/
theorem new_zero_width_no_failure :
    VoxelMap.new 0 5 = { data := [], width := 0, height := 5 } := by decide

/-- Claim C1 (amended): `VoxelMap::new` succeeds for all `width` and
`height` (zero included) and yields `width * height` cells all initialized
to `1.0`. -/
theorem new_total_replicate_one (width height : Nat) :
    (VoxelMap.new width height).data = List.replicate (width * height) 1 ∧
    (VoxelMap.new width height).width = width ∧
    (VoxelMap.new width height).height = height ∧
    (VoxelMap.new width height).data.length = width * height ∧
    ∀ q ∈ (VoxelMap.new width height).data, q = 1 := by
  refine ⟨rfl, rfl, rfl, List.length_replicate .., fun q hq => ?_⟩
  exact List.eq_of_mem_replicate hq

/-!
## Claim C5
-/

/-- Claim C5: `get_density` returns exactly `0` for every out-of-bounds
coordinate, and the stored value `data[y*width + x]` for every in-bounds
coordinate. -/
theorem get_density_cases (m : VoxelMap) (x y : ℤ) :
    ((x < 0 ∨ (m.width : ℤ) ≤ x ∨ y < 0 ∨ (m.height : ℤ) ≤ y) →
      m.get_density x y = 0) ∧
    (0 ≤ x → x < (m.width : ℤ) → 0 ≤ y → y < (m.height : ℤ) →
      m.get_density x y = m.data.getD (y.toNat * m.width + x.toNat) 0) := by
  constructor
  · intro h
    unfold VoxelMap.get_density
    rw [if_pos h]
  · intro hx0 hx hy0 hy
    unfold VoxelMap.get_density
    rw [if_neg (by omega)]

/-- Witness for C5 at concrete inputs. -/
theorem get_density_cases_witness :
    (((-1 : ℤ) < 0 ∨ ((VoxelMap.new 2 3).width : ℤ) ≤ -1 ∨ (0 : ℤ) < 0 ∨
        ((VoxelMap.new 2 3).height : ℤ) ≤ 0) ∧
      (VoxelMap.new 2 3).get_density (-1) 0 = 0) ∧
    ((0 : ℤ) ≤ 1 ∧ (1 : ℤ) < ((VoxelMap.new 2 3).width : ℤ) ∧ (0 : ℤ) ≤ 2 ∧
        (2 : ℤ) < ((VoxelMap.new 2 3).height : ℤ) ∧
      (VoxelMap.new 2 3).get_density 1 2 =
        (VoxelMap.new 2 3).data.getD ((2 : ℤ).toNat * (VoxelMap.new 2 3).width +
          (1 : ℤ).toNat) 0) :=
  ⟨⟨by decide, (get_density_cases (VoxelMap.new 2 3) (-1) 0).1 (by decide)⟩,
   by decide, by decide, by decide, by decide,
   (get_density_cases (VoxelMap.new 2 3) 1 2).2 (by decide) (by decide)
     (by decide) (by decide)⟩

/-!
## Claim C8
-/

/-- Claim C8: `interpolate` returns `p1` whenever `|v1 - v2| < 1/10000`;
otherwise it returns `p1 + t * (p2 - p1)` with `t = (1/2 - v1)/(v2 - v1)`. -/
theorem interpolate_spec (p1 p2 : Vec2) (v1 v2 : ℚ) :
    (|v1 - v2| < 1/10000 → interpolate p1 p2 v1 v2 = p1) ∧
    (¬ |v1 - v2| < 1/10000 →
      interpolate p1 p2 v1 v2 =
        vadd p1 (vsmul (vsub p2 p1) ((1/2 - v1) / (v2 - v1)))) := by
  unfold interpolate
  rw [small_guard_eq, abs_sub_comm v2 v1, ISO_LEVEL_eq]
  constructor
  · intro h
    rw [if_pos h]
  · intro h
    rw [if_neg h]

/-- Witness for C8 at concrete inputs, exercising both branches. -/
theorem interpolate_spec_witness :
    (|(0 : ℚ) - 0| < 1/10000 ∧ interpolate (0, 0) (1, 0) 0 0 = (0, 0)) ∧
    (¬ |(0 : ℚ) - 1| < 1/10000 ∧
      interpolate (0, 0) (1, 0) 0 1 =
        vadd (0, 0) (vsmul (vsub (1, 0) (0, 0)) ((1/2 - 0) / (1 - 0)))) :=
  ⟨⟨by norm_num, (interpolate_spec (0, 0) (1, 0) 0 0).1 (by norm_num)⟩,
   ⟨by norm_num, (interpolate_spec (0, 0) (1, 0) 0 1).2 (by norm_num)⟩⟩

/-!
## Claim C9
-/

/-- Claim C9: `modify_density` at any out-of-range coordinate, with any
amount, is a no-op: the whole map (data, width, height) is unchanged and no
error is signalled. -/
theorem modify_density_oob_noop (m : VoxelMap) (x y : ℤ) (amount : ℚ)
    (h : x < 0 ∨ (m.width : ℤ) ≤ x ∨ y < 0 ∨ (m.height : ℤ) ≤ y) :
    m.modify_density x y amount = m := by
  unfold VoxelMap.modify_density
  rw [if_neg (by omega)]

/-- Witness for C9 at a concrete out-of-range input. -/
theorem modify_density_oob_noop_witness :
    ((5 : ℤ) < 0 ∨ ((VoxelMap.new 2 2).width : ℤ) ≤ 5 ∨ (0 : ℤ) < 0 ∨
      ((VoxelMap.new 2 2).height : ℤ) ≤ 0) ∧
    (VoxelMap.new 2 2).modify_density 5 0 (-1) = VoxelMap.new 2 2 :=
  ⟨by decide, modify_density_oob_noop (VoxelMap.new 2 2) 5 0 (-1) (by decide)⟩

/-!
## Claim C10
-/

/-- Claim C10: an in-bounds `modify_density` changes at most the entry at
flat index `y*width + x`: width, height, the data length, and every other
entry are unchanged. -/
theorem modify_density_frame (m : VoxelMap) (x y : ℤ) (amount : ℚ)
    (hx0 : 0 ≤ x) (hx : x < (m.width : ℤ)) (hy0 : 0 ≤ y)
    (hy : y < (m.height : ℤ)) :
    (m.modify_density x y amount).width = m.width ∧
    (m.modify_density x y amount).height = m.height ∧
    (m.modify_density x y amount).data.length = m.data.length ∧
    ∀ i : ℕ, i ≠ y.toNat * m.width + x.toNat →
      (m.modify_density x y amount).data[i]? = m.data[i]? := by
  unfold VoxelMap.modify_density
  rw [if_pos ⟨hx0, hx, hy0, hy⟩]
  refine ⟨rfl, rfl, List.length_set .., fun i hi => ?_⟩
  exact List.getElem?_set_ne (by omega)

/-- Witness for C10 at a concrete in-bounds input. -/
theorem modify_density_frame_witness :
    (0 : ℤ) ≤ 0 ∧ (0 : ℤ) < ((VoxelMap.new 2 2).width : ℤ) ∧
    (0 : ℤ) ≤ 1 ∧ (1 : ℤ) < ((VoxelMap.new 2 2).height : ℤ) ∧
    (((VoxelMap.new 2 2).modify_density 0 1 (-1)).width = (VoxelMap.new 2 2).width ∧
     ((VoxelMap.new 2 2).modify_density 0 1 (-1)).height = (VoxelMap.new 2 2).height ∧
     ((VoxelMap.new 2 2).modify_density 0 1 (-1)).data.length =
       (VoxelMap.new 2 2).data.length ∧
     ∀ i : ℕ, i ≠ (1 : ℤ).toNat * (VoxelMap.new 2 2).width + (0 : ℤ).toNat →
       ((VoxelMap.new 2 2).modify_density 0 1 (-1)).data[i]? =
         (VoxelMap.new 2 2).data[i]?) :=
  ⟨by decide, by decide, by decide, by decide,
   modify_density_frame (VoxelMap.new 2 2) 0 1 (-1) (by decide) (by decide)
     (by decide) (by decide)⟩

/-!
## Claim C2
-/

/-- `clamp _ 0 1` always lands in `[0, 1]`. -/
theorem clamp01_mem (v : ℚ) : 0 ≤ clamp v 0 1 ∧ clamp v 0 1 ≤ 1 := by
  unfold clamp
  exact ⟨le_max_left _ _, max_le (by norm_num) (min_le_right _ _)⟩

/-- `modify_density` keeps the map's dimensions. -/
theorem modify_density_dims (m : VoxelMap) (x y : ℤ) (amount : ℚ) :
    (m.modify_density x y amount).width = m.width ∧
    (m.modify_density x y amount).height = m.height ∧
    (m.modify_density x y amount).data.length = m.data.length := by
  unfold VoxelMap.modify_density
  split
  · exact ⟨rfl, rfl, List.length_set ..⟩
  · exact ⟨rfl, rfl, rfl⟩

/-- `modify_density` preserves the range invariant. -/
theorem modify_density_in_range01 (m : VoxelMap) (x y : ℤ) (amount : ℚ)
    (h : in_range01 m) : in_range01 (m.modify_density x y amount) := by
  unfold VoxelMap.modify_density
  split
  · intro q hq
    rcases List.mem_or_eq_of_mem_set hq with hq' | hq'
    · exact h q hq'
    · rw [hq']
      exact clamp01_mem _
  · exact h

/-- A fold of `modify_density` calls preserves the range invariant and the
dimensions. -/
theorem foldl_calls_invariant (calls : List (ℤ × ℤ × ℚ)) :
    ∀ m : VoxelMap, in_range01 m →
      in_range01 (calls.foldl apply_call m) ∧
      (calls.foldl apply_call m).width = m.width ∧
      (calls.foldl apply_call m).height = m.height ∧
      (calls.foldl apply_call m).data.length = m.data.length := by
  induction calls with
  | nil => exact fun m h => ⟨h, rfl, rfl, rfl⟩
  | cons c cs ih =>
    intro m h
    obtain ⟨h1, h2, h3, h4⟩ := ih (apply_call m c)
      (modify_density_in_range01 m c.1 c.2.1 c.2.2 h)
    obtain ⟨d1, d2, d3⟩ := modify_density_dims m c.1 c.2.1 c.2.2
    exact ⟨h1, by rw [List.foldl_cons, h2]; exact d1,
      by rw [List.foldl_cons, h3]; exact d2,
      by rw [List.foldl_cons, h4]; exact d3⟩

/-- A freshly constructed map satisfies the range invariant. -/
theorem new_in_range01 (width height : Nat) : in_range01 (VoxelMap.new width height) := by
  intro q hq
  rw [List.eq_of_mem_replicate hq]
  norm_num

/-- Claim C2: after any finite sequence of `modify_density` calls on a fresh
map, the stored value read back at any in-bounds coordinate stays within
`[0, 1]`. -/
theorem modify_density_clamping_law (w h : Nat) (calls : List (ℤ × ℤ × ℚ))
    (x y : ℤ) (hx0 : 0 ≤ x) (hx : x < (w : ℤ)) (hy0 : 0 ≤ y) (hy : y < (h : ℤ)) :
    0 ≤ (calls.foldl apply_call (VoxelMap.new w h)).get_density x y ∧
    (calls.foldl apply_call (VoxelMap.new w h)).get_density x y ≤ 1 := by
  obtain ⟨hinv, hw, hh, hlen⟩ :=
    foldl_calls_invariant calls (VoxelMap.new w h) (new_in_range01 w h)
  rw [show (VoxelMap.new w h).width = w from rfl] at hw
  rw [show (VoxelMap.new w h).height = h from rfl] at hh
  rw [new_data_length] at hlen
  have hxw : x.toNat < w := by omega
  have hyh : y.toNat < h := by omega
  unfold VoxelMap.get_density
  rw [hw, hh]
  have hidx : y.toNat * w + x.toNat <
      (calls.foldl apply_call (VoxelMap.new w h)).data.length := by
    rw [hlen]
    calc y.toNat * w + x.toNat < (y.toNat + 1) * w := by
          rw [Nat.add_mul, Nat.one_mul]; omega
      _ ≤ h * w := Nat.mul_le_mul_right _ (by omega)
      _ = w * h := Nat.mul_comm ..
  rw [if_neg (by omega)]
  rw [List.getD_eq_getElem?_getD, List.getElem?_eq_getElem hidx]
  exact hinv _ (List.getElem_mem hidx)

/-- Witness for C2 at a concrete input. -/
theorem modify_density_clamping_law_witness :
    (0 : ℤ) ≤ 1 ∧ (1 : ℤ) < ((2 : Nat) : ℤ) ∧ (0 : ℤ) ≤ 0 ∧ (0 : ℤ) < ((2 : Nat) : ℤ) ∧
    (0 ≤ ([((1 : ℤ), (0 : ℤ), (-7 : ℚ)), ((1 : ℤ), (0 : ℤ), (3 : ℚ))].foldl
        apply_call (VoxelMap.new 2 2)).get_density 1 0 ∧
      ([((1 : ℤ), (0 : ℤ), (-7 : ℚ)), ((1 : ℤ), (0 : ℤ), (3 : ℚ))].foldl
        apply_call (VoxelMap.new 2 2)).get_density 1 0 ≤ 1) :=
  ⟨by decide, by decide, by decide, by decide,
   modify_density_clamping_law 2 2 [(1, 0, -7), (1, 0, 3)] 1 0
     (by decide) (by decide) (by decide) (by decide)⟩

/-!
## Claim C6
-/

/-- The `testBit` characterization of `case_index` for arbitrary corner
densities. -/
theorem case_index_testBit (v0 v1 v2 v3 : ℚ) :
    ((case_index v0 v1 v2 v3).testBit 0 = true ↔ ISO_LEVEL ≤ v0) ∧
    ((case_index v0 v1 v2 v3).testBit 1 = true ↔ ISO_LEVEL ≤ v1) ∧
    ((case_index v0 v1 v2 v3).testBit 2 = true ↔ ISO_LEVEL ≤ v2) ∧
    ((case_index v0 v1 v2 v3).testBit 3 = true ↔ ISO_LEVEL ≤ v3) := by
  unfold case_index
  by_cases h0 : ISO_LEVEL ≤ v0 <;> by_cases h1 : ISO_LEVEL ≤ v1 <;>
    by_cases h2 : ISO_LEVEL ≤ v2 <;> by_cases h3 : ISO_LEVEL ≤ v3 <;>
    simp only [h0, h1, h2, h3, if_true, if_false, iff_true, iff_false] <;> decide

/-- Claim C6: the case index of cell `(x, y)` samples the corners in the
order bottom-left, bottom-right, top-right, top-left, and sets bit `i`
exactly when the `i`-th corner density is `≥ 1/2` (at-threshold counts as
set). -/
theorem case_index_bits_of_cell (m : VoxelMap) (x y : ℤ) :
    ((case_index (m.get_density x y) (m.get_density (x + 1) y)
        (m.get_density (x + 1) (y + 1)) (m.get_density x (y + 1))).testBit 0 = true ↔
      1/2 ≤ m.get_density x y) ∧
    ((case_index (m.get_density x y) (m.get_density (x + 1) y)
        (m.get_density (x + 1) (y + 1)) (m.get_density x (y + 1))).testBit 1 = true ↔
      1/2 ≤ m.get_density (x + 1) y) ∧
    ((case_index (m.get_density x y) (m.get_density (x + 1) y)
        (m.get_density (x + 1) (y + 1)) (m.get_density x (y + 1))).testBit 2 = true ↔
      1/2 ≤ m.get_density (x + 1) (y + 1)) ∧
    ((case_index (m.get_density x y) (m.get_density (x + 1) y)
        (m.get_density (x + 1) (y + 1)) (m.get_density x (y + 1))).testBit 3 = true ↔
      1/2 ≤ m.get_density x (y + 1)) := by
  have := case_index_testBit (m.get_density x y) (m.get_density (x + 1) y)
    (m.get_density (x + 1) (y + 1)) (m.get_density x (y + 1))
  rwa [ISO_LEVEL_eq] at this

/-!
## Claim C7
-/

/-- The Int floor of a rational of the form `z + 1/2` is `z`. -/
theorem floor_int_add_half (z : ℤ) : ⌊(z : ℚ) + 1/2⌋ = z := by
  rw [Int.floor_int_add]
  norm_num

/-- Claim C7: `world_to_grid` applied to the center of cell `(gx, gy)` —
the extractor's placement point for that cell plus half a cell in each
axis — returns exactly `(gx, gy)`. -/
theorem world_to_grid_inverts_cell_center (m : VoxelMap) (gx gy : ℤ) :
    m.world_to_grid (vadd (cell_origin m gx gy) (VOXEL_SIZE/2, VOXEL_SIZE/2)) =
      (gx, gy) := by
  unfold VoxelMap.world_to_grid cell_origin vadd VOXEL_SIZE
  have hx : ((gx : ℚ) * 8 + -((m.width : ℚ) * 8) / 2 + 8/2 + (m.width : ℚ) * 8 / 2) / 8 =
      (gx : ℚ) + 1/2 := by ring
  have hy : ((gy : ℚ) * 8 + -((m.height : ℚ) * 8) / 2 + 8/2 + (m.height : ℚ) * 8 / 2) / 8 =
      (gy : ℚ) + 1/2 := by ring
  simp only [hx, hy, floor_int_add_half]

/-!
## Claim C3
-/

/-- `case_index` factors through the four threshold tests. -/
theorem case_index_eq_b (v0 v1 v2 v3 : ℚ) :
    case_index v0 v1 v2 v3 =
      case_index_b (decide (ISO_LEVEL ≤ v0)) (decide (ISO_LEVEL ≤ v1))
        (decide (ISO_LEVEL ≤ v2)) (decide (ISO_LEVEL ≤ v3)) := by
  unfold case_index case_index_b
  by_cases h0 : ISO_LEVEL ≤ v0 <;> by_cases h1 : ISO_LEVEL ≤ v1 <;>
    by_cases h2 : ISO_LEVEL ≤ v2 <;> by_cases h3 : ISO_LEVEL ≤ v3 <;>
    simp [h0, h1, h2, h3]

/-- Claim C3: per cell, the emitted segments are exactly the spec's table
entries for the cell's case index, with every named edge interpolated by
the source's `a`/`b`/`c`/`d` rules (cases 0 and 15 emit nothing). -/
theorem cell_segments_match_table (v0 v1 v2 v3 : ℚ) (p0 p1 p2 p3 : Vec2) :
    cell_segments v0 v1 v2 v3 p0 p1 p2 p3 =
      (spec_case_edges (case_index v0 v1 v2 v3)).map
        (fun pr => (edge_point pr.1 v0 v1 v2 v3 p0 p1 p2 p3,
                    edge_point pr.2 v0 v1 v2 v3 p0 p1 p2 p3)) := by
  simp only [cell_segments, case_index_eq_b]
  by_cases h0 : ISO_LEVEL ≤ v0 <;> by_cases h1 : ISO_LEVEL ≤ v1 <;>
    by_cases h2 : ISO_LEVEL ≤ v2 <;> by_cases h3 : ISO_LEVEL ≤ v3 <;>
    simp [h0, h1, h2, h3, case_index_b, spec_case_edges, edge_point,
      edge_points, edge_densities]

/-!
## Claim C4
-/

/-- Finite check: in every table entry of every case, both named edges have
differing endpoint threshold bits. -/
theorem spec_table_edges_cross : ∀ (b0 b1 b2 b3 : Bool) (pr : Edge × Edge),
    pr ∈ spec_case_edges (case_index_b b0 b1 b2 b3) → ∀ e : Edge,
      e = pr.1 ∨ e = pr.2 →
        (edge_density_bits e b0 b1 b2 b3).1 ≠ (edge_density_bits e b0 b1 b2 b3).2 := by
  decide

/-- The bits of an edge are the threshold tests of its endpoint densities. -/
theorem edge_density_bits_eq (e : Edge) (v0 v1 v2 v3 : ℚ) :
    edge_density_bits e (decide (ISO_LEVEL ≤ v0)) (decide (ISO_LEVEL ≤ v1))
        (decide (ISO_LEVEL ≤ v2)) (decide (ISO_LEVEL ≤ v3)) =
      (decide (ISO_LEVEL ≤ (edge_densities e v0 v1 v2 v3).1),
       decide (ISO_LEVEL ≤ (edge_densities e v0 v1 v2 v3).2)) := by
  cases e <;> rfl

/-- Differing threshold bits mean a genuine crossing. -/
theorem crossing_of_decide_ne (u v : ℚ)
    (h : decide (ISO_LEVEL ≤ u) ≠ decide (ISO_LEVEL ≤ v)) : crossing u v := by
  by_cases hu : ISO_LEVEL ≤ u <;> by_cases hv : ISO_LEVEL ≤ v
  · simp [hu, hv] at h
  · exact Or.inl ⟨hu, not_le.mp hv⟩
  · exact Or.inr ⟨not_le.mp hu, hv⟩
  · simp [hu, hv] at h

/-- On a crossing edge the interpolation parameter is in `[0, 1]` and the
returned point is a convex combination of the edge endpoints. -/
theorem interpolate_crossing (q1 q2 : Vec2) (u v : ℚ) (h : crossing u v) :
    (0 ≤ (ISO_LEVEL - u) / (v - u) ∧ (ISO_LEVEL - u) / (v - u) ≤ 1) ∧
    ∃ s : ℚ, 0 ≤ s ∧ s ≤ 1 ∧
      interpolate q1 q2 u v = vadd q1 (vsmul (vsub q2 q1) s) := by
  have ht : 0 ≤ (ISO_LEVEL - u) / (v - u) ∧ (ISO_LEVEL - u) / (v - u) ≤ 1 := by
    rcases h with ⟨hu, hv⟩ | ⟨hu, hv⟩
    · have hflip : (ISO_LEVEL - u) / (v - u) = (u - ISO_LEVEL) / (u - v) := by
        rw [← neg_div_neg_eq]; ring_nf
      rw [hflip]
      constructor
      · exact div_nonneg (by linarith) (by linarith)
      · rw [div_le_one (by linarith)]; linarith
    · constructor
      · exact div_nonneg (by linarith) (by linarith)
      · rw [div_le_one (by linarith)]; linarith
  refine ⟨ht, ?_⟩
  by_cases hguard : |v - u| < mkRat 1 10000
  · refine ⟨0, le_refl 0, by norm_num, ?_⟩
    unfold interpolate
    rw [if_pos hguard]
    show q1 = vadd q1 (vsmul (vsub q2 q1) 0)
    unfold vadd vsmul vsub
    simp
  · refine ⟨(ISO_LEVEL - u) / (v - u), ht.1, ht.2, ?_⟩
    unfold interpolate
    rw [if_neg hguard]

/-- Claim C4: every edge whose interpolated point appears in an emitted
segment (per the case table at the cell's case index) crosses the
threshold, its interpolation parameter `t = (ISO_LEVEL - v1)/(v2 - v1)`
lies in `[0, 1]`, and the (unclamped) interpolated point lies on that edge
as a convex combination of its endpoints. -/
theorem emitted_edges_cross_threshold (v0 v1 v2 v3 : ℚ) (p0 p1 p2 p3 : Vec2)
    (pr : Edge × Edge) (hpr : pr ∈ spec_case_edges (case_index v0 v1 v2 v3))
    (e : Edge) (he : e = pr.1 ∨ e = pr.2) :
    crossing (edge_densities e v0 v1 v2 v3).1 (edge_densities e v0 v1 v2 v3).2 ∧
    (0 ≤ (ISO_LEVEL - (edge_densities e v0 v1 v2 v3).1) /
        ((edge_densities e v0 v1 v2 v3).2 - (edge_densities e v0 v1 v2 v3).1) ∧
      (ISO_LEVEL - (edge_densities e v0 v1 v2 v3).1) /
        ((edge_densities e v0 v1 v2 v3).2 - (edge_densities e v0 v1 v2 v3).1) ≤ 1) ∧
    ∃ s : ℚ, 0 ≤ s ∧ s ≤ 1 ∧
      edge_point e v0 v1 v2 v3 p0 p1 p2 p3 =
        vadd (edge_points e p0 p1 p2 p3).1
          (vsmul (vsub (edge_points e p0 p1 p2 p3).2 (edge_points e p0 p1 p2 p3).1) s) := by
  rw [case_index_eq_b] at hpr
  have hne := spec_table_edges_cross _ _ _ _ pr hpr e he
  rw [edge_density_bits_eq] at hne
  simp only [ne_eq] at hne
  have hcross := crossing_of_decide_ne _ _ hne
  obtain ⟨ht, hs⟩ := interpolate_crossing (edge_points e p0 p1 p2 p3).1
    (edge_points e p0 p1 p2 p3).2 _ _ hcross
  exact ⟨hcross, ht, hs⟩

/-- Witness for C4 at a concrete input: corner values `1, 0, 0, 0`
(case 1), whose table entry is the segment `a–d`, checked on edge `a`. -/
theorem emitted_edges_cross_threshold_witness :
    ((Edge.a, Edge.d) ∈ spec_case_edges (case_index 1 0 0 0) ∧
      (Edge.a = (Edge.a, Edge.d).1 ∨ Edge.a = (Edge.a, Edge.d).2)) ∧
    (crossing (edge_densities Edge.a 1 0 0 0).1 (edge_densities Edge.a 1 0 0 0).2 ∧
      (0 ≤ (ISO_LEVEL - (edge_densities Edge.a 1 0 0 0).1) /
          ((edge_densities Edge.a 1 0 0 0).2 - (edge_densities Edge.a 1 0 0 0).1) ∧
        (ISO_LEVEL - (edge_densities Edge.a 1 0 0 0).1) /
          ((edge_densities Edge.a 1 0 0 0).2 - (edge_densities Edge.a 1 0 0 0).1) ≤ 1) ∧
      ∃ s : ℚ, 0 ≤ s ∧ s ≤ 1 ∧
        edge_point Edge.a 1 0 0 0 (0, 0) (1, 0) (1, 1) (0, 1) =
          vadd (edge_points Edge.a (0, 0) (1, 0) (1, 1) (0, 1)).1
            (vsmul (vsub (edge_points Edge.a (0, 0) (1, 0) (1, 1) (0, 1)).2
              (edge_points Edge.a (0, 0) (1, 0) (1, 1) (0, 1)).1) s)) :=
  ⟨⟨by decide, by decide⟩,
   emitted_edges_cross_threshold 1 0 0 0 (0, 0) (1, 0) (1, 1) (0, 1)
     (Edge.a, Edge.d) (by decide) Edge.a (by decide)⟩
